import Mathlib

/-!
Verification development for the repository fragment consisting of
`src/util/performance.ts` (lifecycle and frame metrics recorder, per-resource
timing wrapper) and `src/geo/lng_lat_bounds.ts` (geographic bounding boxes).

Numbers are embedded as exact rationals.  The handful of places where the
JavaScript code can produce `NaN` or `Infinity` (divisions by zero) are
embedded with the small type `JNum` below, whose division and multiplication
follow IEEE-754 special-value semantics over exact rational payloads.
-/

attribute [local semireducible] Rat.sub Rat.add Rat.mul Rat.inv Rat.ofScientific

/-- Decidable equality of `Except` results, so that concrete runs can be
checked by `decide`. -/
instance {e a : Type} [DecidableEq e] [DecidableEq a] : DecidableEq (Except e a) := by
  intro x y
  cases x with
  | error e1 =>
    cases y with
    | error e2 => exact decidable_of_iff (e1 = e2) (by simp)
    | ok v2 => exact isFalse (by simp)
  | ok v1 =>
    cases y with
    | error e2 => exact isFalse (by simp)
    | ok v2 => exact decidable_of_iff (v1 = v2) (by simp)

/-- A JavaScript number, restricted to the values reachable in this code:
an exact rational, a signed infinity (`inf true` is `+Infinity`), or `NaN`. -/
inductive JNum where
  | nan : JNum
  | inf : Bool → JNum
  | num : ℚ → JNum
deriving DecidableEq, Repr

/-- JavaScript division on `JNum`: `0/0` is `NaN`, `a/0` is a signed
infinity for `a ≠ 0`, and `NaN` propagates. -/
def jdiv : JNum → JNum → JNum
  | JNum.nan, _ => JNum.nan
  | _, JNum.nan => JNum.nan
  | JNum.num a, JNum.num b =>
      if b = 0 then
        (if a = 0 then JNum.nan else if 0 < a then JNum.inf true else JNum.inf false)
      else JNum.num (a / b)
  | JNum.num _, JNum.inf _ => JNum.num 0
  | JNum.inf s, JNum.num b => if b < 0 then JNum.inf (!s) else JNum.inf s
  | JNum.inf _, JNum.inf _ => JNum.nan

/-- JavaScript multiplication on `JNum`: `0 * Infinity` is `NaN`,
and `NaN` propagates. -/
def jmul : JNum → JNum → JNum
  | JNum.nan, _ => JNum.nan
  | _, JNum.nan => JNum.nan
  | JNum.num a, JNum.num b => JNum.num (a * b)
  | JNum.num a, JNum.inf s =>
      if a = 0 then JNum.nan else if 0 < a then JNum.inf s else JNum.inf (!s)
  | JNum.inf s, JNum.num b =>
      if b = 0 then JNum.nan else if 0 < b then JNum.inf s else JNum.inf (!s)
  | JNum.inf s, JNum.inf t => JNum.inf (s == t)

/-- The kind of an entry in the host timing log: a named instant ("mark") or
a named duration ("measure"). -/
inductive EntryType where
  | mark : EntryType
  | measure : EntryType
deriving DecidableEq, Repr

/-- Modelled from the spec: an entry of the host timing facility's queryable
entry log, exposing `{name, startTime, duration, ...}` (spec section 6); the
facility itself is not part of `src/`. -/
structure PerfEntry where
  name : String
  entryType : EntryType
  startTime : ℚ
  duration : ℚ
deriving DecidableEq, Repr

/-- Modelled from the spec: the shared, environment-managed timing log holding
marks and measures in insertion order (spec sections 2 and 6). -/
structure Timeline where
  entries : List PerfEntry
deriving DecidableEq, Repr

/-- The Boolean test "is a mark named `n`", shared by mark lookup and
`clearMarks` so that clearing and looking up agree definitionally. -/
def isMarkNamed (n : String) (e : PerfEntry) : Bool :=
  e.entryType == EntryType.mark && e.name == n

/-- The Boolean test "is a measure named `n`". -/
def isMeasureNamed (n : String) (e : PerfEntry) : Bool :=
  e.entryType == EntryType.measure && e.name == n

/-- Modelled from the spec: `recordMark(name)` appends a named instant with
the current time to the shared log. -/
def Timeline.mark (tl : Timeline) (n : String) (now : ℚ) : Timeline :=
  ⟨tl.entries ++ [⟨n, EntryType.mark, now, 0⟩]⟩

/-- Modelled from the spec: `queryEntriesByName(name)` returns every logged
entry carrying that name, in insertion order. -/
def Timeline.getEntriesByName (tl : Timeline) (n : String) : List PerfEntry :=
  tl.entries.filter (fun e => e.name == n)

/-- The most recent mark recorded under a name, used by `recordMeasure` to
resolve its start/end mark names. -/
def Timeline.lookupMark (tl : Timeline) (n : String) : Option PerfEntry :=
  (tl.entries.filter (isMarkNamed n)).getLast?

/-- Modelled from the spec: `recordMeasure(name, startMark, endMark)` appends
a measure spanning the two named marks; a missing mark is the facility's own
failure mode (spec sections 4.1 and 7: "undefined/fatal", "throwing"),
embedded as an `Except.error`. -/
def Timeline.measureBetween (tl : Timeline) (n startName endName : String) :
    Except String Timeline :=
  match tl.lookupMark startName, tl.lookupMark endName with
  | some s, some e =>
      Except.ok ⟨tl.entries ++ [⟨n, EntryType.measure, s.startTime, e.startTime - s.startTime⟩]⟩
  | _, _ => Except.error "SyntaxError"

/-- Modelled from the spec: `clearMarks(name)` removes every mark recorded
under the name (measures under the same name are untouched). -/
def Timeline.clearMarks (tl : Timeline) (n : String) : Timeline :=
  ⟨tl.entries.filter (fun e => !(isMarkNamed n e))⟩

/-- Modelled from the spec: `clearMeasures(name)` removes every measure
recorded under the name (marks under the same name are untouched). -/
def Timeline.clearMeasures (tl : Timeline) (n : String) : Timeline :=
  ⟨tl.entries.filter (fun e => !(isMeasureNamed n e))⟩

/-- Modelled from the spec: the environment may autonomously append
resource-timing entries to the shared log (main-context behaviour). -/
def Timeline.addEntries (tl : Timeline) (l : List PerfEntry) : Timeline :=
  ⟨tl.entries ++ l⟩

/-- The `PerformanceMarkers` enum of `performance.ts`. -/
inductive PerformanceMarkers where
  | create : PerformanceMarkers
  | load : PerformanceMarkers
  | fullLoad : PerformanceMarkers
deriving DecidableEq, Repr

/-- The string value each `PerformanceMarkers` member carries in the source. -/
def PerformanceMarkers.str : PerformanceMarkers → String
  | PerformanceMarkers.create => "create"
  | PerformanceMarkers.load => "load"
  | PerformanceMarkers.fullLoad => "fullLoad"

def loadTimeKey : String := "loadTime"

def fullLoadTimeKey : String := "fullLoadTime"

def minFramerateTarget : ℚ := 60

def frameTimeTarget : ℚ := 1000 / minFramerateTarget

/-- The module-level mutable state of `performance.ts`: the recorder's
`lastFrameTime` and `frameTimes` together with the shared timing log it
reads and writes. -/
structure PerfState where
  lastFrameTime : Option ℚ
  frameTimes : List ℚ
  timeline : Timeline
deriving DecidableEq, Repr

/-- The `PerformanceMetrics` record returned by `getPerformanceMetrics`. -/
structure PerformanceMetrics where
  loadTime : ℚ
  fullLoadTime : ℚ
  fps : JNum
  percentDroppedFrames : JNum
  totalFrames : ℕ
deriving DecidableEq, Repr

/-- `PerformanceUtils.mark`: records an instant under the marker's name. -/
def PerformanceUtils.mark (marker : PerformanceMarkers) (now : ℚ) (s : PerfState) : PerfState :=
  { s with timeline := s.timeline.mark marker.str now }

/-- `PerformanceUtils.frame`: on the first call only seeds the baseline; on
every later call appends `timestamp - lastFrameTime` and updates the
baseline. -/
def PerformanceUtils.frame (timestamp : ℚ) (s : PerfState) : PerfState :=
  match s.lastFrameTime with
  | some prev =>
      { s with frameTimes := s.frameTimes ++ [timestamp - prev], lastFrameTime := some timestamp }
  | none => { s with lastFrameTime := some timestamp }

/-- `PerformanceUtils.clearMetrics`: resets the baseline and the sample, and
clears the two measures and the three lifecycle marks from the shared log. -/
def PerformanceUtils.clearMetrics (s : PerfState) : PerfState :=
  { lastFrameTime := none
    frameTimes := []
    timeline :=
      ((((s.timeline.clearMeasures loadTimeKey).clearMeasures
          fullLoadTimeKey).clearMarks
          PerformanceMarkers.create.str).clearMarks
          PerformanceMarkers.load.str).clearMarks PerformanceMarkers.fullLoad.str }

/-- `frameTimes.reduce((prev, curr) => prev + curr, 0)` of the source. -/
def frameTimesSum (l : List ℚ) : ℚ := l.foldl (fun prev curr => prev + curr) 0

/-- `fps = 1 / avgFrameTime` with
`avgFrameTime = reduce(..) / totalFrames / 1000`, as in the source. -/
def fpsOf (l : List ℚ) : JNum :=
  jdiv (JNum.num 1)
    (jdiv (jdiv (JNum.num (frameTimesSum l)) (JNum.num (l.length : ℚ))) (JNum.num 1000))

/-- The `droppedFrames` accumulator of the source: filter the frame times
exceeding `frameTimeTarget`, then fold the fractional overages. -/
def droppedWeight (l : List ℚ) : ℚ :=
  (l.filter (fun frameTime => decide (frameTimeTarget < frameTime))).foldl
    (fun acc curr => acc + (curr - frameTimeTarget) / frameTimeTarget) 0

/-- `percentDroppedFrames = (droppedFrames / (totalFrames + droppedFrames)) * 100`
of the source. -/
def pctDroppedOf (l : List ℚ) : JNum :=
  jmul (jdiv (JNum.num (droppedWeight l)) (JNum.num ((l.length : ℚ) + droppedWeight l)))
    (JNum.num 100)

/-- `PerformanceUtils.getPerformanceMetrics`: measures the two load
durations, then derives `fps` and the weighted dropped-frame percentage from
the current `frameTimes`.  The indexing `getEntriesByName(..)[0].duration`
of the source is fallible, hence the `Except`. -/
def PerformanceUtils.getPerformanceMetrics (s : PerfState) :
    Except String (PerformanceMetrics × PerfState) :=
  match Timeline.measureBetween s.timeline loadTimeKey PerformanceMarkers.create.str
      PerformanceMarkers.load.str with
  | Except.error e => Except.error e
  | Except.ok tl1 =>
    match Timeline.measureBetween tl1 fullLoadTimeKey PerformanceMarkers.create.str
        PerformanceMarkers.fullLoad.str with
    | Except.error e => Except.error e
    | Except.ok tl2 =>
      match (tl2.getEntriesByName loadTimeKey).head?, (tl2.getEntriesByName fullLoadTimeKey).head? with
      | some eLoad, some eFull =>
        Except.ok
          ({ loadTime := eLoad.duration
             fullLoadTime := eFull.duration
             fps := fpsOf s.frameTimes
             percentDroppedFrames := pctDroppedOf s.frameTimes
             totalFrames := s.frameTimes.length }, { s with timeline := tl2 })
      | _, _ => Except.error "TypeError"

/-- Iterated `PerformanceUtils.frame` over a list of timestamps. -/
def applyFrames (ts : List ℚ) (s : PerfState) : PerfState :=
  ts.foldl (fun s t => PerformanceUtils.frame t s) s

/-- The `RequestPerformance` wrapper: its three derived names
(`<url>#start`, `<url>#end`, `<url>`). -/
structure RequestPerformance where
  startName : String
  endName : String
  measureName : String
deriving DecidableEq, Repr

/-- The `RequestPerformance` constructor: derives the three names from the
request url and records the start mark. -/
def RequestPerformance.create (url : String) (now : ℚ) (tl : Timeline) :
    RequestPerformance × Timeline :=
  let marks : RequestPerformance :=
    { startName := url ++ "#start", endName := url ++ "#end", measureName := url }
  (marks, tl.mark marks.startName now)

/-- `RequestPerformance.finish`: records the end mark, queries the log under
the measure name, and on an empty result synthesizes the measure, re-queries,
and cleans up its marks and the synthesized measure. -/
def RequestPerformance.finish (rp : RequestPerformance) (now : ℚ) (tl : Timeline) :
    Except String (List PerfEntry × Timeline) :=
  let tl1 := tl.mark rp.endName now
  let resourceTimingData := tl1.getEntriesByName rp.measureName
  if resourceTimingData.isEmpty then
    match Timeline.measureBetween tl1 rp.measureName rp.startName rp.endName with
    | Except.error e => Except.error e
    | Except.ok tl2 =>
      let resourceTimingData2 := tl2.getEntriesByName rp.measureName
      let tl3 := ((tl2.clearMarks rp.startName).clearMarks rp.endName).clearMeasures rp.measureName
      Except.ok (resourceTimingData2, tl3)
  else Except.ok (resourceTimingData, tl1)

/-- A longitude/latitude pair (`lng_lat.ts`). -/
structure LngLat where
  lng : ℚ
  lat : ℚ
deriving DecidableEq, Repr

/-- A bounding box given by its southwest and northeast corners
(`lng_lat_bounds.ts`). -/
structure LngLatBounds where
  _sw : LngLat
  _ne : LngLat
deriving DecidableEq, Repr

/-- `LngLatBounds.contains`: latitude must lie between the corners; the
longitude test is replaced, when `_sw.lng > _ne.lng` ("wrapped coordinates"),
by `_sw.lng >= lng && lng >= _ne.lng`. -/
def LngLatBounds.contains (b : LngLatBounds) (p : LngLat) : Bool :=
  let containsLatitude := decide (b._sw.lat ≤ p.lat) && decide (p.lat ≤ b._ne.lat)
  let containsLongitude :=
    if b._sw.lng > b._ne.lng then
      decide (b._sw.lng ≥ p.lng) && decide (p.lng ≥ b._ne.lng)
    else
      decide (b._sw.lng ≤ p.lng) && decide (p.lng ≤ b._ne.lng)
  containsLatitude && containsLongitude

/-- The containment predicate claim C9 describes for an
antimeridian-crossing box: latitude within range and longitude in the
wrapped interval (at or east of the west edge, or at or west of the east
edge). -/
def wrappedContainsClaim (b : LngLatBounds) (p : LngLat) : Bool :=
  (decide (b._sw.lat ≤ p.lat) && decide (p.lat ≤ b._ne.lat)) &&
    (decide (p.lng ≥ b._sw.lng) || decide (p.lng ≤ b._ne.lng))

/-- The measure entry appended for `loadTimeKey` when the `create` and
`load` marks resolve to `c0` and `l0`. -/
def loadMeasureEntry (c0 l0 : PerfEntry) : PerfEntry :=
  ⟨loadTimeKey, EntryType.measure, c0.startTime, l0.startTime - c0.startTime⟩

/-- The measure entry appended for `fullLoadTimeKey` when the `create` and
`fullLoad` marks resolve to `c0` and `f0`. -/
def fullLoadMeasureEntry (c0 f0 : PerfEntry) : PerfEntry :=
  ⟨fullLoadTimeKey, EntryType.measure, c0.startTime, f0.startTime - c0.startTime⟩

/-- The shared timing log as `finish` sees it on its first query: the
wrapper was created at `t1` over `init`, the environment auto-appended
`auto`, and `finish` has just recorded the end mark at `t2`. -/
def observedFinishState (init : Timeline) (auto : List PerfEntry) (url : String) (t1 t2 : ℚ) :
    Timeline :=
  (((RequestPerformance.create url t1 init).2).addEntries auto).mark
    (RequestPerformance.create url t1 init).1.endName t2

/-- A timing log holding just the three lifecycle marks. -/
def baseTimeline : Timeline :=
  ⟨[⟨"create", EntryType.mark, 0, 0⟩, ⟨"load", EntryType.mark, 1, 0⟩,
    ⟨"fullLoad", EntryType.mark, 2, 0⟩]⟩

/-- A recorder state with two recorded frame deltas, one over budget. -/
def sampleState : PerfState := ⟨some 3, [20, 10], baseTimeline⟩

/-- A recorder state whose sample is three frames of `16.67` ms. -/
def sampleC7 : PerfState := ⟨some 3, [1667 / 100, 1667 / 100, 1667 / 100], baseTimeline⟩

/-- A recorder state with one recorded frame delta. -/
def sampleC3 : PerfState := ⟨some 3, [10], baseTimeline⟩

/-- A freshly constructed recorder over a log with the lifecycle marks. -/
def freshState : PerfState := ⟨none, [], baseTimeline⟩

/-- A timing log that already holds a foreign measure stored under the name
`u#start`, one of the derived names of a wrapper for the url `u`. -/
def c5init : Timeline := ⟨[⟨"u#start", EntryType.measure, 0, 0⟩]⟩

/-- An environment-provided resource timing entry for the url `u`. -/
def c10auto : List PerfEntry := [⟨"u", EntryType.measure, 0, 5⟩]

/-- An antimeridian-crossing box: the southwest longitude (170) exceeds the
northeast longitude (-170). -/
def antimeridianBox : LngLatBounds := ⟨⟨170, 0⟩, ⟨-170, 10⟩⟩

theorem droppedFoldl_eq_sum (l : List ℚ) (a : ℚ) :
    l.foldl (fun acc curr => acc + (curr - frameTimeTarget) / frameTimeTarget) a =
      a + (l.map (fun curr => (curr - frameTimeTarget) / frameTimeTarget)).sum := by
  induction l generalizing a with
  | nil => simp
  | cons x xs ih => simp [List.foldl, ih]; ring

theorem droppedWeight_eq_sum (l : List ℚ) :
    droppedWeight l =
      ((l.filter (fun frameTime => decide (frameTimeTarget < frameTime))).map
        (fun frameTime => (frameTime - frameTimeTarget) / frameTimeTarget)).sum := by
  unfold droppedWeight
  rw [droppedFoldl_eq_sum, zero_add]

theorem getLast_filter_isSome {α : Type} {p : α → Bool} {l : List α} {x : α}
    (hx : x ∈ l) (hp : p x = true) : ∃ y, (l.filter p).getLast? = some y := by
  have hmem : x ∈ l.filter p := List.mem_filter.mpr ⟨hx, hp⟩
  have hne : l.filter p ≠ [] := List.ne_nil_of_mem hmem
  exact Option.isSome_iff_exists.mp (List.getLast?_isSome.mpr hne)

theorem head_append_of_head {α : Type} {l : List α} (l' : List α) {a : α}
    (h : l.head? = some a) : (l ++ l').head? = some a := by
  cases l with
  | nil => simp at h
  | cons x xs => simpa using h

theorem lookupMark_concat_mark (l : List PerfEntry) (n : String) (t : ℚ) :
    Timeline.lookupMark ⟨l ++ [⟨n, EntryType.mark, t, 0⟩]⟩ n = some ⟨n, EntryType.mark, t, 0⟩ := by
  unfold Timeline.lookupMark
  have h1 : List.filter (isMarkNamed n) [⟨n, EntryType.mark, t, 0⟩] = [⟨n, EntryType.mark, t, 0⟩] := by
    simp [isMarkNamed]
  rw [List.filter_append, h1, List.getLast?_concat]

theorem lookupMark_append_noMark (l l' : List PerfEntry) (n : String)
    (h : ∀ e ∈ l', isMarkNamed n e = false) :
    Timeline.lookupMark ⟨l ++ l'⟩ n = Timeline.lookupMark ⟨l⟩ n := by
  unfold Timeline.lookupMark
  have h1 : List.filter (isMarkNamed n) l' = [] := by
    rw [List.filter_eq_nil_iff]
    intro a ha
    rw [h a ha]
    simp
  rw [List.filter_append, h1, List.append_nil]

theorem measureBetween_ok_of_lookups {tl : Timeline} {a b : String} (n : String)
    {s e : PerfEntry} (ha : tl.lookupMark a = some s) (hb : tl.lookupMark b = some e) :
    Timeline.measureBetween tl n a b =
      Except.ok ⟨tl.entries ++ [⟨n, EntryType.measure, s.startTime, e.startTime - s.startTime⟩]⟩ := by
  unfold Timeline.measureBetween
  rw [ha, hb]

theorem measureBetween_ok_inv {tl tl' : Timeline} {n a b : String}
    (h : Timeline.measureBetween tl n a b = Except.ok tl') :
    ∃ s e, tl.lookupMark a = some s ∧ tl.lookupMark b = some e ∧
      tl'.entries = tl.entries ++ [⟨n, EntryType.measure, s.startTime, e.startTime - s.startTime⟩] := by
  unfold Timeline.measureBetween at h
  cases hs : tl.lookupMark a with
  | none => rw [hs] at h; simp at h
  | some s =>
    cases he : tl.lookupMark b with
    | none => rw [hs, he] at h; simp at h
    | some e =>
      rw [hs, he] at h
      refine ⟨s, e, rfl, rfl, ?_⟩
      cases h
      rfl

theorem gpm_ok_of_marks (s : PerfState) (c0 l0 f0 eL eF : PerfEntry)
    (hc : s.timeline.lookupMark PerformanceMarkers.create.str = some c0)
    (hl : s.timeline.lookupMark PerformanceMarkers.load.str = some l0)
    (hf : s.timeline.lookupMark PerformanceMarkers.fullLoad.str = some f0)
    (hhL : (Timeline.getEntriesByName
        ⟨s.timeline.entries ++ [loadMeasureEntry c0 l0, fullLoadMeasureEntry c0 f0]⟩
        loadTimeKey).head? = some eL)
    (hhF : (Timeline.getEntriesByName
        ⟨s.timeline.entries ++ [loadMeasureEntry c0 l0, fullLoadMeasureEntry c0 f0]⟩
        fullLoadTimeKey).head? = some eF) :
    PerformanceUtils.getPerformanceMetrics s =
      Except.ok
        ({ loadTime := eL.duration
           fullLoadTime := eF.duration
           fps := fpsOf s.frameTimes
           percentDroppedFrames := pctDroppedOf s.frameTimes
           totalFrames := s.frameTimes.length },
         { s with timeline :=
            ⟨s.timeline.entries ++ [loadMeasureEntry c0 l0, fullLoadMeasureEntry c0 f0]⟩ }) := by
  have h1 := measureBetween_ok_of_lookups loadTimeKey hc hl
  have hc1 : Timeline.lookupMark ⟨s.timeline.entries ++ [loadMeasureEntry c0 l0]⟩
      PerformanceMarkers.create.str = some c0 := by
    rw [lookupMark_append_noMark _ _ _ (by simp [loadMeasureEntry, isMarkNamed])]
    exact hc
  have hf1 : Timeline.lookupMark ⟨s.timeline.entries ++ [loadMeasureEntry c0 l0]⟩
      PerformanceMarkers.fullLoad.str = some f0 := by
    rw [lookupMark_append_noMark _ _ _ (by simp [loadMeasureEntry, isMarkNamed])]
    exact hf
  have h2 := measureBetween_ok_of_lookups fullLoadTimeKey hc1 hf1
  unfold PerformanceUtils.getPerformanceMetrics
  rw [h1]
  dsimp only
  dsimp only [loadMeasureEntry, fullLoadMeasureEntry] at h2 hhL hhF
  rw [h2]
  dsimp only
  simp only [List.append_assoc, List.cons_append, List.nil_append] at hhL hhF ⊢
  rw [hhL, hhF]
  dsimp only [loadMeasureEntry, fullLoadMeasureEntry]

theorem gpm_ok_inv {s : PerfState} {m : PerformanceMetrics} {s' : PerfState}
    (h : PerformanceUtils.getPerformanceMetrics s = Except.ok (m, s')) :
    ∃ c0 l0 f0 eL eF,
      s.timeline.lookupMark PerformanceMarkers.create.str = some c0 ∧
      s.timeline.lookupMark PerformanceMarkers.load.str = some l0 ∧
      s.timeline.lookupMark PerformanceMarkers.fullLoad.str = some f0 ∧
      (Timeline.getEntriesByName
        ⟨s.timeline.entries ++ [loadMeasureEntry c0 l0, fullLoadMeasureEntry c0 f0]⟩
        loadTimeKey).head? = some eL ∧
      (Timeline.getEntriesByName
        ⟨s.timeline.entries ++ [loadMeasureEntry c0 l0, fullLoadMeasureEntry c0 f0]⟩
        fullLoadTimeKey).head? = some eF ∧
      m = { loadTime := eL.duration
            fullLoadTime := eF.duration
            fps := fpsOf s.frameTimes
            percentDroppedFrames := pctDroppedOf s.frameTimes
            totalFrames := s.frameTimes.length } ∧
      s' = { s with timeline :=
        ⟨s.timeline.entries ++ [loadMeasureEntry c0 l0, fullLoadMeasureEntry c0 f0]⟩ } := by
  unfold PerformanceUtils.getPerformanceMetrics at h
  cases h1 : Timeline.measureBetween s.timeline loadTimeKey PerformanceMarkers.create.str
      PerformanceMarkers.load.str with
  | error e => rw [h1] at h; simp at h
  | ok tl1 =>
    rw [h1] at h
    dsimp only at h
    cases h2 : Timeline.measureBetween tl1 fullLoadTimeKey PerformanceMarkers.create.str
        PerformanceMarkers.fullLoad.str with
    | error e => rw [h2] at h; simp at h
    | ok tl2 =>
      rw [h2] at h
      dsimp only at h
      obtain ⟨c0, l0, hc, hl, htl1⟩ := measureBetween_ok_inv h1
      obtain ⟨c1, f0, hc1, hf1, htl2⟩ := measureBetween_ok_inv h2
      have hnoMark : ∀ e ∈ [(⟨loadTimeKey, EntryType.measure, c0.startTime,
          l0.startTime - c0.startTime⟩ : PerfEntry)],
          isMarkNamed PerformanceMarkers.create.str e = false := by
        simp [isMarkNamed]
      have htl1' : tl1 = ⟨s.timeline.entries ++ [⟨loadTimeKey, EntryType.measure, c0.startTime,
          l0.startTime - c0.startTime⟩]⟩ := by
        cases tl1
        simp only at htl1
        rw [htl1]
      have hcc : tl1.lookupMark PerformanceMarkers.create.str = some c0 := by
        rw [htl1', lookupMark_append_noMark _ _ _ hnoMark]
        exact hc
      have hc0eq : c1 = c0 := by
        rw [hcc] at hc1
        exact (Option.some.inj hc1).symm
      rw [hc0eq] at htl2
      have hff : s.timeline.lookupMark PerformanceMarkers.fullLoad.str = some f0 := by
        rw [htl1', lookupMark_append_noMark _ _ _ (by simp [isMarkNamed])] at hf1
        exact hf1
      have htl2' : tl2 = ⟨s.timeline.entries ++
          [loadMeasureEntry c0 l0, fullLoadMeasureEntry c0 f0]⟩ := by
        cases tl2
        simp only at htl2
        rw [Timeline.mk.injEq]
        rw [htl2, htl1']
        simp [loadMeasureEntry, fullLoadMeasureEntry]
      subst htl2'
      cases h3 : (Timeline.getEntriesByName ⟨s.timeline.entries ++
          [loadMeasureEntry c0 l0, fullLoadMeasureEntry c0 f0]⟩ loadTimeKey).head? with
      | none => rw [h3] at h; simp at h
      | some eL =>
        cases h4 : (Timeline.getEntriesByName ⟨s.timeline.entries ++
            [loadMeasureEntry c0 l0, fullLoadMeasureEntry c0 f0]⟩ fullLoadTimeKey).head? with
        | none => rw [h3, h4] at h; simp at h
        | some eF =>
          rw [h3, h4] at h
          dsimp only at h
          rw [Except.ok.injEq, Prod.mk.injEq] at h
          exact ⟨c0, l0, f0, eL, eF, hc, hl, hff, h3, h4, h.1.symm, h.2.symm⟩

/-- Claim C1: for every FrameTimeSample, `getPerformanceMetrics` computes the
dropped weight as the sum, over exactly those recorded frame times strictly
exceeding `target = 1000/60` ms, of `(frameTime - target) / target`, and
returns `percentDroppedFrames = droppedWeight / (totalFrames + droppedWeight) * 100`
with `totalFrames` the length of the sample. -/
theorem C1_percentDroppedFrames_spec (s : PerfState) (m : PerformanceMetrics) (s' : PerfState)
    (h : PerformanceUtils.getPerformanceMetrics s = Except.ok (m, s')) :
    m.totalFrames = s.frameTimes.length ∧
    m.percentDroppedFrames =
      jmul
        (jdiv
          (JNum.num (((s.frameTimes.filter (fun frameTime => decide (frameTimeTarget < frameTime))).map
            (fun frameTime => (frameTime - frameTimeTarget) / frameTimeTarget)).sum))
          (JNum.num ((s.frameTimes.length : ℚ) +
            ((s.frameTimes.filter (fun frameTime => decide (frameTimeTarget < frameTime))).map
              (fun frameTime => (frameTime - frameTimeTarget) / frameTimeTarget)).sum)))
        (JNum.num 100) := by
  obtain ⟨c0, l0, f0, eL, eF, hc, hl, hf, hhL, hhF, hm, hs⟩ := gpm_ok_inv h
  subst hm
  refine ⟨rfl, ?_⟩
  dsimp only [pctDroppedOf]
  rw [droppedWeight_eq_sum]

/-- Witness for C1 at a concrete recorder state. -/
theorem C1_percentDroppedFrames_witness :
    (⟨1, 2, JNum.num (200 / 3), JNum.num (100 / 11), 2⟩ : PerformanceMetrics).totalFrames =
      sampleState.frameTimes.length ∧
    (⟨1, 2, JNum.num (200 / 3), JNum.num (100 / 11), 2⟩ : PerformanceMetrics).percentDroppedFrames =
      jmul
        (jdiv
          (JNum.num (((sampleState.frameTimes.filter
              (fun frameTime => decide (frameTimeTarget < frameTime))).map
            (fun frameTime => (frameTime - frameTimeTarget) / frameTimeTarget)).sum))
          (JNum.num ((sampleState.frameTimes.length : ℚ) +
            ((sampleState.frameTimes.filter
                (fun frameTime => decide (frameTimeTarget < frameTime))).map
              (fun frameTime => (frameTime - frameTimeTarget) / frameTimeTarget)).sum)))
        (JNum.num 100) :=
  C1_percentDroppedFrames_spec sampleState
    ⟨1, 2, JNum.num (200 / 3), JNum.num (100 / 11), 2⟩
    ⟨some 3, [20, 10],
      ⟨[⟨"create", EntryType.mark, 0, 0⟩, ⟨"load", EntryType.mark, 1, 0⟩,
        ⟨"fullLoad", EntryType.mark, 2, 0⟩, ⟨"loadTime", EntryType.measure, 0, 1⟩,
        ⟨"fullLoadTime", EntryType.measure, 0, 2⟩]⟩⟩
    (by decide)

/-- Counterexample to claim C7: on the sample `[16.67, 16.67, 16.67]` ms the
computed `percentDroppedFrames` is `100/5001` (about 0.02), not 0, because
`16.67` strictly exceeds the `1000/60` ms budget. -/
theorem C7_target_frames_counterexample :
    (PerformanceUtils.getPerformanceMetrics sampleC7).map
        (fun p => p.1.percentDroppedFrames) = Except.ok (JNum.num (100 / 5001)) ∧
      JNum.num ((100 : ℚ) / 5001) ≠ JNum.num 0 := by
  constructor
  · decide
  · decide

/-- Claim C7, amended: on the sample `[16.67, 16.67, 16.67]` ms,
`getPerformanceMetrics` returns `fps = 100000/1667` (about 59.99, within
tolerance of 60) and `percentDroppedFrames = 100/5001` (about 0.02, small
but positive): each 16.67 ms frame exceeds the `1000/60` ms budget by
`1/300` ms and contributes overage `1/5000` to the dropped weight. -/
theorem C7_amended_target_frames :
    (PerformanceUtils.getPerformanceMetrics sampleC7).map (fun p => p.1.fps) =
        Except.ok (JNum.num (100000 / 1667)) ∧
      |(100000 : ℚ) / 1667 - 60| < 1 / 50 ∧
      (PerformanceUtils.getPerformanceMetrics sampleC7).map
          (fun p => p.1.percentDroppedFrames) = Except.ok (JNum.num (100 / 5001)) ∧
      (0 : ℚ) < 100 / 5001 ∧ (100 : ℚ) / 5001 < 3 / 100 := by
  refine ⟨by decide, by rw [abs_sub_comm]; rw [abs_of_nonneg (by norm_num)]; norm_num, by decide, by norm_num, by norm_num⟩

/-- Counterexample to claim C3: after `clearMetrics()` removed the lifecycle
marks, `getPerformanceMetrics()` fails in the measure step (the host facility's
missing-mark failure) instead of returning a zero-frame record. -/
theorem C3_clearMetrics_then_metrics_errors :
    PerformanceUtils.getPerformanceMetrics (PerformanceUtils.clearMetrics sampleC3) =
      Except.error "SyntaxError" := by decide

/-- Counterexample to claim C8: the timestamps 5, 5 are monotonically
non-decreasing, yet the element appended to the FrameTimeSample is 0, which
is not positive. -/
theorem C8_positive_counterexample :
    (5 : ℚ) ≤ 5 ∧
      (PerformanceUtils.frame 5 (PerformanceUtils.frame 5 freshState)).frameTimes = [0] ∧
      ¬(0 : ℚ) < 0 := by
  refine ⟨le_refl 5, by decide, by norm_num⟩

/-- Claim C9: for the antimeridian-crossing box with west edge 170 and east
edge -170, `contains` evaluates the wrapped-coordinates branch with the
inverted interval: the in-box point at longitude 175 is rejected while the
far-side point at longitude 0 is accepted, the opposite of the wrapped
interval (`lng >= west or lng <= east`) the claim describes. -/
theorem C9_wrapped_contains_check :
    antimeridianBox._ne.lng < antimeridianBox._sw.lng ∧
    LngLatBounds.contains antimeridianBox ⟨175, 5⟩ = false ∧
    wrappedContainsClaim antimeridianBox ⟨175, 5⟩ = true ∧
    LngLatBounds.contains antimeridianBox ⟨0, 5⟩ = true ∧
    wrappedContainsClaim antimeridianBox ⟨0, 5⟩ = false := by
  refine ⟨by norm_num [antimeridianBox], by decide, by decide, by decide, by decide⟩

/-- Counterexample to claim C5: over a log already holding a foreign measure
stored under the derived name `u#start`, the wrapper's first query under `u`
is empty and `finish` takes the fallback, yet the final log still holds one
entry under the derived name `u#start` (cleanup removes only mark-type
entries under the mark names). -/
theorem C5_cleanup_counterexample :
    ((RequestPerformance.create "u" 0 c5init).2.mark "u#end" 1).getEntriesByName "u" = [] ∧
    (RequestPerformance.finish (RequestPerformance.create "u" 0 c5init).1 1
        (RequestPerformance.create "u" 0 c5init).2).map
      (fun p => (p.1.length, p.2.entries.countP (fun e => e.name == "u#start"))) =
      Except.ok (1, 1) := by
  constructor
  · decide
  · decide

theorem frame_some_shape (t p : ℚ) (s : PerfState) (h : s.lastFrameTime = some p) :
    PerformanceUtils.frame t s =
      { s with frameTimes := s.frameTimes ++ [t - p], lastFrameTime := some t } := by
  unfold PerformanceUtils.frame
  rw [h]

theorem frame_none_shape (t : ℚ) (s : PerfState) (h : s.lastFrameTime = none) :
    PerformanceUtils.frame t s = { s with lastFrameTime := some t } := by
  unfold PerformanceUtils.frame
  rw [h]

theorem applyFrames_some_length (ts : List ℚ) :
    ∀ (s : PerfState) (p : ℚ), s.lastFrameTime = some p →
      (applyFrames ts s).frameTimes.length = s.frameTimes.length + ts.length := by
  induction ts with
  | nil => intro s p h; simp [applyFrames]
  | cons t ts ih =>
    intro s p h
    have hstep : applyFrames (t :: ts) s = applyFrames ts (PerformanceUtils.frame t s) := rfl
    rw [hstep, frame_some_shape t p s h, ih _ t rfl]
    simp
    omega

theorem applyFrames_fresh_length (ts : List ℚ) (s : PerfState)
    (h1 : s.lastFrameTime = none) (h2 : s.frameTimes = []) :
    (applyFrames ts s).frameTimes.length = ts.length - 1 := by
  cases ts with
  | nil => simp [applyFrames, h2]
  | cons t ts =>
    have hstep : applyFrames (t :: ts) s = applyFrames ts (PerformanceUtils.frame t s) := rfl
    rw [hstep, frame_none_shape t s h1, applyFrames_some_length ts _ t rfl]
    rw [h2]
    simp

/-- Claim C2: from a fresh or just-cleared recorder, `frame(t0)` then
`frame(t1)` records exactly the one delta `t1 - t0`; and after any `n` calls
to `frame`, a successful `getPerformanceMetrics` reports
`totalFrames = n - 1` (which is 0 for `n = 0`, the first call only seeding
the baseline). -/
theorem C2_frame_deltas_totalFrames :
    (∀ (s : PerfState) (t0 t1 : ℚ), s.lastFrameTime = none → s.frameTimes = [] →
        (PerformanceUtils.frame t1 (PerformanceUtils.frame t0 s)).frameTimes = [t1 - t0]) ∧
    (∀ (s : PerfState) (ts : List ℚ) (m : PerformanceMetrics) (s' : PerfState),
        s.lastFrameTime = none → s.frameTimes = [] →
        PerformanceUtils.getPerformanceMetrics (applyFrames ts s) = Except.ok (m, s') →
        m.totalFrames = ts.length - 1) := by
  constructor
  · intro s t0 t1 h1 h2
    rw [frame_none_shape t0 s h1, frame_some_shape t1 t0 _ rfl]

    simp [h2]
  · intro s ts m s' h1 h2 h
    obtain ⟨c0, l0, f0, eL, eF, hc, hl, hf, hhL, hhF, hm, hs⟩ := gpm_ok_inv h
    subst hm
    exact applyFrames_fresh_length ts s h1 h2

/-- Witness for C2 at a concrete three-timestamp run. -/
theorem C2_frame_deltas_totalFrames_witness :
    (⟨1, 2, JNum.num (2000 / 3), JNum.num 0, 2⟩ : PerformanceMetrics).totalFrames =
      [(1 : ℚ), 2, 4].length - 1 :=
  C2_frame_deltas_totalFrames.2 freshState [1, 2, 4]
    ⟨1, 2, JNum.num (2000 / 3), JNum.num 0, 2⟩
    ⟨some 4, [1, 2],
      ⟨[⟨"create", EntryType.mark, 0, 0⟩, ⟨"load", EntryType.mark, 1, 0⟩,
        ⟨"fullLoad", EntryType.mark, 2, 0⟩, ⟨"loadTime", EntryType.measure, 0, 1⟩,
        ⟨"fullLoadTime", EntryType.measure, 0, 2⟩]⟩⟩
    rfl rfl (by decide)

theorem applyFrames_nonneg_chain (ts : List ℚ) :
    ∀ (s : PerfState) (p : ℚ), s.lastFrameTime = some p →
      List.Chain' (fun a b => a ≤ b) (p :: ts) →
      (∀ x ∈ s.frameTimes, 0 ≤ x) →
      ∀ x ∈ (applyFrames ts s).frameTimes, 0 ≤ x := by
  induction ts with
  | nil => intro s p hlast hchain hall; simpa [applyFrames] using hall
  | cons t ts ih =>
    intro s p hlast hchain hall
    have hstep : applyFrames (t :: ts) s = applyFrames ts (PerformanceUtils.frame t s) := rfl
    have hpt : p ≤ t := (List.chain'_cons.mp hchain).1
    have hchain2 : List.Chain' (fun a b => a ≤ b) (t :: ts) := (List.chain'_cons.mp hchain).2
    rw [hstep, frame_some_shape t p s hlast]
    refine ih _ t rfl hchain2 ?_
    intro x hx
    rcases List.mem_append.mp hx with hx | hx
    · exact hall x hx
    · rw [List.mem_singleton] at hx
      subst hx
      linarith

/-- Claim C8, amended: `frame` only ever appends to the FrameTimeSample
(append-only), `clearMetrics` resets it, and under monotonically
non-decreasing timestamps every recorded element is non-negative (not
strictly positive: equal consecutive timestamps record a delta of 0, as the
counterexample shows). -/
theorem C8_amended_nonneg_append_only :
    (∀ (s : PerfState) (t : ℚ), ∃ tail,
        (PerformanceUtils.frame t s).frameTimes = s.frameTimes ++ tail) ∧
    (∀ (s : PerfState) (ts : List ℚ), s.lastFrameTime = none → s.frameTimes = [] →
        List.Chain' (fun a b => a ≤ b) ts →
        ∀ x ∈ (applyFrames ts s).frameTimes, 0 ≤ x) ∧
    (∀ s : PerfState, (PerformanceUtils.clearMetrics s).frameTimes = []) := by
  refine ⟨?_, ?_, fun s => rfl⟩
  · intro s t
    cases h : s.lastFrameTime with
    | some p => exact ⟨[t - p], by rw [frame_some_shape t p s h]⟩
    | none => exact ⟨[], by rw [frame_none_shape t s h, List.append_nil]⟩
  · intro s ts h1 h2 hchain
    cases ts with
    | nil =>
      intro x hx
      rw [show applyFrames [] s = s from rfl, h2] at hx
      cases hx
    | cons t ts =>
      have hstep : applyFrames (t :: ts) s = applyFrames ts (PerformanceUtils.frame t s) := rfl
      rw [hstep, frame_none_shape t s h1]
      refine applyFrames_nonneg_chain ts _ t rfl hchain ?_
      intro x hx
      rw [h2] at hx
      cases hx

/-- Witness for the amended C8 on the run 1, 2, 4. -/
theorem C8_amended_nonneg_append_only_witness : (0 : ℚ) ≤ 1 :=
  C8_amended_nonneg_append_only.2.1 freshState [1, 2, 4] rfl rfl
    (by norm_num [List.chain'_cons]) 1 (by decide)

theorem head_filter_isSome {α : Type} {p : α → Bool} {l : List α} {x : α}
    (hx : x ∈ l) (hp : p x = true) : ∃ y, (l.filter p).head? = some y := by
  have hmem : x ∈ l.filter p := List.mem_filter.mpr ⟨hx, hp⟩
  have hne : l.filter p ≠ [] := List.ne_nil_of_mem hmem
  cases hh : (l.filter p).head? with
  | none => exact absurd (List.head?_eq_none_iff.mp hh) hne
  | some y => exact ⟨y, rfl⟩

theorem lookupMark_isSome_of_mem {tl : Timeline} {x : PerfEntry} {n : String}
    (hx : x ∈ tl.entries) (hn : isMarkNamed n x = true) : ∃ y, tl.lookupMark n = some y :=
  getLast_filter_isSome hx hn

/-- Claim C3, amended: `clearMetrics()` clears the lifecycle marks, so a bare
`getPerformanceMetrics()` right after it fails in the measure step (see the
counterexample); once the three marks are re-recorded, the call succeeds with
`totalFrames = 0` and not-a-number `fps` and `percentDroppedFrames` (the
zero-frame divisions yield `NaN`, not an error). -/
theorem C3_amended_zero_frames_nan (s : PerfState) (t1 t2 t3 : ℚ) :
    ∃ (m : PerformanceMetrics) (s' : PerfState),
      PerformanceUtils.getPerformanceMetrics
        (PerformanceUtils.mark PerformanceMarkers.fullLoad t3
          (PerformanceUtils.mark PerformanceMarkers.load t2
            (PerformanceUtils.mark PerformanceMarkers.create t1
              (PerformanceUtils.clearMetrics s)))) = Except.ok (m, s') ∧
      m.totalFrames = 0 ∧ m.fps = JNum.nan ∧ m.percentDroppedFrames = JNum.nan := by
  have hstate : PerformanceUtils.mark PerformanceMarkers.fullLoad t3
      (PerformanceUtils.mark PerformanceMarkers.load t2
        (PerformanceUtils.mark PerformanceMarkers.create t1
          (PerformanceUtils.clearMetrics s))) =
      { lastFrameTime := none
        frameTimes := []
        timeline := ⟨(((PerformanceUtils.clearMetrics s).timeline.entries ++
          [⟨"create", EntryType.mark, t1, 0⟩]) ++ [⟨"load", EntryType.mark, t2, 0⟩]) ++
          [⟨"fullLoad", EntryType.mark, t3, 0⟩]⟩ } := rfl
  rw [hstate]
  have hc : Timeline.lookupMark ⟨(((PerformanceUtils.clearMetrics s).timeline.entries ++
      [⟨"create", EntryType.mark, t1, 0⟩]) ++ [⟨"load", EntryType.mark, t2, 0⟩]) ++
      [⟨"fullLoad", EntryType.mark, t3, 0⟩]⟩ "create" =
      some ⟨"create", EntryType.mark, t1, 0⟩ := by
    rw [lookupMark_append_noMark _ _ _ (by intro e he; rw [List.mem_singleton] at he; subst he; rfl)]
    rw [lookupMark_append_noMark _ _ _ (by intro e he; rw [List.mem_singleton] at he; subst he; rfl)]
    exact lookupMark_concat_mark _ _ _
  have hl : Timeline.lookupMark ⟨(((PerformanceUtils.clearMetrics s).timeline.entries ++
      [⟨"create", EntryType.mark, t1, 0⟩]) ++ [⟨"load", EntryType.mark, t2, 0⟩]) ++
      [⟨"fullLoad", EntryType.mark, t3, 0⟩]⟩ "load" =
      some ⟨"load", EntryType.mark, t2, 0⟩ := by
    rw [lookupMark_append_noMark _ _ _ (by intro e he; rw [List.mem_singleton] at he; subst he; rfl)]
    exact lookupMark_concat_mark _ _ _
  have hf : Timeline.lookupMark ⟨(((PerformanceUtils.clearMetrics s).timeline.entries ++
      [⟨"create", EntryType.mark, t1, 0⟩]) ++ [⟨"load", EntryType.mark, t2, 0⟩]) ++
      [⟨"fullLoad", EntryType.mark, t3, 0⟩]⟩ "fullLoad" =
      some ⟨"fullLoad", EntryType.mark, t3, 0⟩ := lookupMark_concat_mark _ _ _
  obtain ⟨eL, hhL⟩ := @head_filter_isSome PerfEntry (fun e => e.name == loadTimeKey)
    (((((PerformanceUtils.clearMetrics s).timeline.entries ++
      [⟨"create", EntryType.mark, t1, 0⟩]) ++ [⟨"load", EntryType.mark, t2, 0⟩]) ++
      [⟨"fullLoad", EntryType.mark, t3, 0⟩]) ++
      [loadMeasureEntry ⟨"create", EntryType.mark, t1, 0⟩ ⟨"load", EntryType.mark, t2, 0⟩,
        fullLoadMeasureEntry ⟨"create", EntryType.mark, t1, 0⟩ ⟨"fullLoad", EntryType.mark, t3, 0⟩])
    (loadMeasureEntry ⟨"create", EntryType.mark, t1, 0⟩ ⟨"load", EntryType.mark, t2, 0⟩)
    (by simp) rfl
  obtain ⟨eF, hhF⟩ := @head_filter_isSome PerfEntry (fun e => e.name == fullLoadTimeKey)
    (((((PerformanceUtils.clearMetrics s).timeline.entries ++
      [⟨"create", EntryType.mark, t1, 0⟩]) ++ [⟨"load", EntryType.mark, t2, 0⟩]) ++
      [⟨"fullLoad", EntryType.mark, t3, 0⟩]) ++
      [loadMeasureEntry ⟨"create", EntryType.mark, t1, 0⟩ ⟨"load", EntryType.mark, t2, 0⟩,
        fullLoadMeasureEntry ⟨"create", EntryType.mark, t1, 0⟩ ⟨"fullLoad", EntryType.mark, t3, 0⟩])
    (fullLoadMeasureEntry ⟨"create", EntryType.mark, t1, 0⟩ ⟨"fullLoad", EntryType.mark, t3, 0⟩)
    (by simp) rfl
  have hrun := gpm_ok_of_marks
    { lastFrameTime := none
      frameTimes := []
      timeline := ⟨(((PerformanceUtils.clearMetrics s).timeline.entries ++
        [⟨"create", EntryType.mark, t1, 0⟩]) ++ [⟨"load", EntryType.mark, t2, 0⟩]) ++
        [⟨"fullLoad", EntryType.mark, t3, 0⟩]⟩ }
    ⟨"create", EntryType.mark, t1, 0⟩ ⟨"load", EntryType.mark, t2, 0⟩
    ⟨"fullLoad", EntryType.mark, t3, 0⟩ eL eF hc hl hf hhL hhF
  refine ⟨_, _, hrun, rfl, ?_, ?_⟩
  · dsimp only
    decide
  · dsimp only
    decide

theorem finish_ok_of_startMark (rp : RequestPerformance) (now : ℚ) (tl : Timeline)
    (ha : ∃ x, Timeline.lookupMark (tl.mark rp.endName now) rp.startName = some x) :
    ∃ res tl', rp.finish now tl = Except.ok (res, tl') := by
  obtain ⟨x, hx⟩ := ha
  have hb : Timeline.lookupMark (tl.mark rp.endName now) rp.endName =
      some ⟨rp.endName, EntryType.mark, now, 0⟩ :=
    lookupMark_concat_mark tl.entries rp.endName now
  unfold RequestPerformance.finish
  dsimp only
  split
  · rw [measureBetween_ok_of_lookups rp.measureName hx hb]
    exact ⟨_, _, rfl⟩
  · exact ⟨_, _, rfl⟩

/-- Claim C4: whatever the initial log and whatever resource-timing entries
the environment auto-populates between construction and `finish`, `finish`
returns a sequence of entries (never an error): both the observed and the
synthesized branch produce `Except.ok`. -/
theorem C4_finish_never_throws (init : Timeline) (auto : List PerfEntry)
    (url : String) (t1 t2 : ℚ) :
    ∃ res tl',
      RequestPerformance.finish (RequestPerformance.create url t1 init).1 t2
        (((RequestPerformance.create url t1 init).2).addEntries auto) =
        Except.ok (res, tl') := by
  apply finish_ok_of_startMark
  have hmem : (⟨url ++ "#start", EntryType.mark, t1, 0⟩ : PerfEntry) ∈
      ((init.entries ++ [⟨url ++ "#start", EntryType.mark, t1, 0⟩]) ++ auto) ++
      [⟨url ++ "#end", EntryType.mark, t2, 0⟩] := by simp
  exact lookupMark_isSome_of_mem hmem (by simp [isMarkNamed]; rfl)

/-- Claim C10: when `finish` finds a non-empty entry list on its first query
(the fallback is not taken), it returns that list with the log unchanged, so
the `<url>#start` and `<url>#end` marks the wrapper recorded remain in the
shared log: cleanup happens only on the fallback path. -/
theorem C10_observed_path_marks_remain (init : Timeline) (auto : List PerfEntry)
    (url : String) (t1 t2 : ℚ)
    (h : (observedFinishState init auto url t1 t2).getEntriesByName
        (RequestPerformance.create url t1 init).1.measureName ≠ []) :
    RequestPerformance.finish (RequestPerformance.create url t1 init).1 t2
        (((RequestPerformance.create url t1 init).2).addEntries auto) =
      Except.ok
        ((observedFinishState init auto url t1 t2).getEntriesByName
            (RequestPerformance.create url t1 init).1.measureName,
          observedFinishState init auto url t1 t2) ∧
    (⟨url ++ "#start", EntryType.mark, t1, 0⟩ : PerfEntry) ∈
      (observedFinishState init auto url t1 t2).entries ∧
    (⟨url ++ "#end", EntryType.mark, t2, 0⟩ : PerfEntry) ∈
      (observedFinishState init auto url t1 t2).entries := by
  refine ⟨?_, ?_, ?_⟩
  · unfold RequestPerformance.finish
    dsimp only
    split
    · next hq =>
        exact absurd (List.isEmpty_iff.mp hq) h
    · rfl
  · show _ ∈ ((init.entries ++ [⟨url ++ "#start", EntryType.mark, t1, 0⟩]) ++ auto) ++
      [⟨url ++ "#end", EntryType.mark, t2, 0⟩]
    simp
  · show _ ∈ ((init.entries ++ [⟨url ++ "#start", EntryType.mark, t1, 0⟩]) ++ auto) ++
      [⟨url ++ "#end", EntryType.mark, t2, 0⟩]
    simp

/-- Witness for C10 with an environment-provided entry for the url `u`. -/
theorem C10_observed_path_marks_remain_witness :
    RequestPerformance.finish (RequestPerformance.create "u" 0 ⟨[]⟩).1 1
        (((RequestPerformance.create "u" 0 ⟨[]⟩).2).addEntries c10auto) =
      Except.ok
        ((observedFinishState ⟨[]⟩ c10auto "u" 0 1).getEntriesByName
            (RequestPerformance.create "u" 0 ⟨[]⟩).1.measureName,
          observedFinishState ⟨[]⟩ c10auto "u" 0 1) ∧
    (⟨"u" ++ "#start", EntryType.mark, 0, 0⟩ : PerfEntry) ∈
      (observedFinishState ⟨[]⟩ c10auto "u" 0 1).entries ∧
    (⟨"u" ++ "#end", EntryType.mark, 1, 0⟩ : PerfEntry) ∈
      (observedFinishState ⟨[]⟩ c10auto "u" 0 1).entries :=
  C10_observed_path_marks_remain ⟨[]⟩ c10auto "u" 0 1 (by decide)

theorem getEntriesByName_append (A B : List PerfEntry) (n : String) :
    Timeline.getEntriesByName ⟨A ++ B⟩ n =
      Timeline.getEntriesByName ⟨A⟩ n ++ Timeline.getEntriesByName ⟨B⟩ n := by
  unfold Timeline.getEntriesByName
  exact List.filter_append A B

/-- Claim C6: `getPerformanceMetrics` leaves the recorder state
(`frameTimes` and the last-frame baseline) unchanged, and a repeated call
with no intervening `frame()` or `mark()` succeeds again with the same
`totalFrames`, `fps` and `percentDroppedFrames`. -/
theorem C6_metrics_idempotent (s : PerfState) (m1 : PerformanceMetrics) (s1 : PerfState)
    (h : PerformanceUtils.getPerformanceMetrics s = Except.ok (m1, s1)) :
    s1.lastFrameTime = s.lastFrameTime ∧ s1.frameTimes = s.frameTimes ∧
    ∃ (m2 : PerformanceMetrics) (s2 : PerfState),
      PerformanceUtils.getPerformanceMetrics s1 = Except.ok (m2, s2) ∧
      m2.totalFrames = m1.totalFrames ∧ m2.fps = m1.fps ∧
      m2.percentDroppedFrames = m1.percentDroppedFrames := by
  obtain ⟨c0, l0, f0, eL, eF, hc, hl, hf, hhL, hhF, hm, hs⟩ := gpm_ok_inv h
  subst hm hs
  refine ⟨rfl, rfl, ?_⟩
  have hnoM : ∀ e ∈ [loadMeasureEntry c0 l0, fullLoadMeasureEntry c0 f0],
      ∀ n, isMarkNamed n e = false := by
    intro e he n
    rw [List.mem_cons, List.mem_singleton] at he
    rcases he with he | he <;> subst he <;>
      simp [loadMeasureEntry, fullLoadMeasureEntry, isMarkNamed]
  have hc2 : Timeline.lookupMark
      ⟨s.timeline.entries ++ [loadMeasureEntry c0 l0, fullLoadMeasureEntry c0 f0]⟩
      PerformanceMarkers.create.str = some c0 := by
    rw [lookupMark_append_noMark _ _ _ (fun e he => hnoM e he _)]
    exact hc
  have hl2 : Timeline.lookupMark
      ⟨s.timeline.entries ++ [loadMeasureEntry c0 l0, fullLoadMeasureEntry c0 f0]⟩
      PerformanceMarkers.load.str = some l0 := by
    rw [lookupMark_append_noMark _ _ _ (fun e he => hnoM e he _)]
    exact hl
  have hf2 : Timeline.lookupMark
      ⟨s.timeline.entries ++ [loadMeasureEntry c0 l0, fullLoadMeasureEntry c0 f0]⟩
      PerformanceMarkers.fullLoad.str = some f0 := by
    rw [lookupMark_append_noMark _ _ _ (fun e he => hnoM e he _)]
    exact hf
  have hhL2 : (Timeline.getEntriesByName
      ⟨(s.timeline.entries ++ [loadMeasureEntry c0 l0, fullLoadMeasureEntry c0 f0]) ++
        [loadMeasureEntry c0 l0, fullLoadMeasureEntry c0 f0]⟩ loadTimeKey).head? = some eL := by
    rw [getEntriesByName_append]
    exact head_append_of_head _ hhL
  have hhF2 : (Timeline.getEntriesByName
      ⟨(s.timeline.entries ++ [loadMeasureEntry c0 l0, fullLoadMeasureEntry c0 f0]) ++
        [loadMeasureEntry c0 l0, fullLoadMeasureEntry c0 f0]⟩ fullLoadTimeKey).head? = some eF := by
    rw [getEntriesByName_append]
    exact head_append_of_head _ hhF
  have hrun := gpm_ok_of_marks
    { s with timeline :=
        ⟨s.timeline.entries ++ [loadMeasureEntry c0 l0, fullLoadMeasureEntry c0 f0]⟩ }
    c0 l0 f0 eL eF hc2 hl2 hf2 hhL2 hhF2
  exact ⟨_, _, hrun, rfl, rfl, rfl⟩

/-- Witness for C6 at a concrete recorder state. -/
theorem C6_metrics_idempotent_witness :
    (⟨some 3, [20, 10],
      ⟨[⟨"create", EntryType.mark, 0, 0⟩, ⟨"load", EntryType.mark, 1, 0⟩,
        ⟨"fullLoad", EntryType.mark, 2, 0⟩, ⟨"loadTime", EntryType.measure, 0, 1⟩,
        ⟨"fullLoadTime", EntryType.measure, 0, 2⟩]⟩⟩ : PerfState).lastFrameTime =
      sampleState.lastFrameTime ∧
    (⟨some 3, [20, 10],
      ⟨[⟨"create", EntryType.mark, 0, 0⟩, ⟨"load", EntryType.mark, 1, 0⟩,
        ⟨"fullLoad", EntryType.mark, 2, 0⟩, ⟨"loadTime", EntryType.measure, 0, 1⟩,
        ⟨"fullLoadTime", EntryType.measure, 0, 2⟩]⟩⟩ : PerfState).frameTimes =
      sampleState.frameTimes ∧
    ∃ (m2 : PerformanceMetrics) (s2 : PerfState),
      PerformanceUtils.getPerformanceMetrics
        (⟨some 3, [20, 10],
          ⟨[⟨"create", EntryType.mark, 0, 0⟩, ⟨"load", EntryType.mark, 1, 0⟩,
            ⟨"fullLoad", EntryType.mark, 2, 0⟩, ⟨"loadTime", EntryType.measure, 0, 1⟩,
            ⟨"fullLoadTime", EntryType.measure, 0, 2⟩]⟩⟩ : PerfState) = Except.ok (m2, s2) ∧
      m2.totalFrames = (⟨1, 2, JNum.num (200 / 3), JNum.num (100 / 11), 2⟩ :
        PerformanceMetrics).totalFrames ∧
      m2.fps = (⟨1, 2, JNum.num (200 / 3), JNum.num (100 / 11), 2⟩ :
        PerformanceMetrics).fps ∧
      m2.percentDroppedFrames = (⟨1, 2, JNum.num (200 / 3), JNum.num (100 / 11), 2⟩ :
        PerformanceMetrics).percentDroppedFrames :=
  C6_metrics_idempotent sampleState
    ⟨1, 2, JNum.num (200 / 3), JNum.num (100 / 11), 2⟩
    ⟨some 3, [20, 10],
      ⟨[⟨"create", EntryType.mark, 0, 0⟩, ⟨"load", EntryType.mark, 1, 0⟩,
        ⟨"fullLoad", EntryType.mark, 2, 0⟩, ⟨"loadTime", EntryType.measure, 0, 1⟩,
        ⟨"fullLoadTime", EntryType.measure, 0, 2⟩]⟩⟩
    (by decide)

theorem string_append_right_ne {a b : String} (u : String) (h : a ≠ b) : u ++ a ≠ u ++ b := by
  intro hh
  have hd : (u ++ a).data = (u ++ b).data := congrArg String.data hh
  rw [String.data_append, String.data_append] at hd
  exact h (String.ext (List.append_cancel_left hd))

theorem finish_fallback_run (rp : RequestPerformance) (now : ℚ) (tl : Timeline) (s0 : PerfEntry)
    (hq : (tl.mark rp.endName now).getEntriesByName rp.measureName = [])
    (hS : (tl.mark rp.endName now).lookupMark rp.startName = some s0) :
    rp.finish now tl =
      Except.ok ([⟨rp.measureName, EntryType.measure, s0.startTime, now - s0.startTime⟩],
        (((⟨(tl.mark rp.endName now).entries ++
            [⟨rp.measureName, EntryType.measure, s0.startTime, now - s0.startTime⟩]⟩ : Timeline
          ).clearMarks rp.startName).clearMarks rp.endName).clearMeasures rp.measureName) := by
  have hb := lookupMark_concat_mark tl.entries rp.endName now
  have hb' : (tl.mark rp.endName now).lookupMark rp.endName =
      some ⟨rp.endName, EntryType.mark, now, 0⟩ := hb
  unfold RequestPerformance.finish
  dsimp only
  split
  · rw [measureBetween_ok_of_lookups rp.measureName hS hb']
    dsimp only
    have hq' : Timeline.getEntriesByName ⟨(tl.mark rp.endName now).entries⟩ rp.measureName =
        [] := hq
    have hq2 : Timeline.getEntriesByName
        ⟨(tl.mark rp.endName now).entries ++
          [⟨rp.measureName, EntryType.measure, s0.startTime, now - s0.startTime⟩]⟩
        rp.measureName =
        [⟨rp.measureName, EntryType.measure, s0.startTime, now - s0.startTime⟩] := by
      rw [getEntriesByName_append, hq']
      simp [Timeline.getEntriesByName]
    rw [hq2]
  · next hcond =>
      rw [hq] at hcond
      exact absurd rfl hcond

theorem mem_clear_chain {tl : Timeline} {a b c : String} {e : PerfEntry}
    (he : e ∈ (((tl.clearMarks a).clearMarks b).clearMeasures c).entries) :
    e ∈ tl.entries ∧ isMarkNamed a e = false ∧ isMarkNamed b e = false ∧
      isMeasureNamed c e = false := by
  unfold Timeline.clearMarks Timeline.clearMeasures at he
  simp only [List.mem_filter, Bool.not_eq_true'] at he
  tauto

/-- Claim C5, amended: a wrapper whose first query under its measure name is
empty synthesizes the measure, returns the one-entry sequence with
duration `t2 - t1` (non-negative for a monotone clock), and cleans its two
marks and the synthesized measure from the log; afterwards no entry remains
under any of the three derived names, provided the log held no pre-existing
measure-type entries stored under the two derived mark names (cleanup
removes only mark-type entries under `<url>#start` / `<url>#end`, so such
foreign measures survive, as the counterexample shows). -/
theorem C5_amended_fallback_cleanup (init : Timeline) (url : String) (t1 t2 : ℚ)
    (hmono : t1 ≤ t2)
    (hq : ((RequestPerformance.create url t1 init).2.mark
        (RequestPerformance.create url t1 init).1.endName t2).getEntriesByName
        (RequestPerformance.create url t1 init).1.measureName = [])
    (hclean : ∀ e ∈ init.entries, e.entryType = EntryType.measure →
        e.name ≠ (RequestPerformance.create url t1 init).1.startName ∧
        e.name ≠ (RequestPerformance.create url t1 init).1.endName) :
    ∃ tl' : Timeline,
      RequestPerformance.finish (RequestPerformance.create url t1 init).1 t2
          (RequestPerformance.create url t1 init).2 =
        Except.ok ([⟨url, EntryType.measure, t1, t2 - t1⟩], tl') ∧
      0 ≤ t2 - t1 ∧
      ∀ e ∈ tl'.entries,
        e.name ≠ (RequestPerformance.create url t1 init).1.startName ∧
        e.name ≠ (RequestPerformance.create url t1 init).1.endName ∧
        e.name ≠ (RequestPerformance.create url t1 init).1.measureName := by
  have hsn : (RequestPerformance.create url t1 init).1.startName = url ++ "#start" := rfl
  have hen : (RequestPerformance.create url t1 init).1.endName = url ++ "#end" := rfl
  have hmn : (RequestPerformance.create url t1 init).1.measureName = url := rfl
  have hS : Timeline.lookupMark ⟨(init.entries ++ [⟨url ++ "#start", EntryType.mark, t1, 0⟩]) ++
      [⟨url ++ "#end", EntryType.mark, t2, 0⟩]⟩ (url ++ "#start") =
      some ⟨url ++ "#start", EntryType.mark, t1, 0⟩ := by
    have hno : ∀ e ∈ [(⟨url ++ "#end", EntryType.mark, t2, 0⟩ : PerfEntry)],
        isMarkNamed (url ++ "#start") e = false := by
      intro e he
      rw [List.mem_singleton] at he
      subst he
      simp [isMarkNamed]
      exact string_append_right_ne url (by decide)
    rw [lookupMark_append_noMark _ _ _ hno]
    exact lookupMark_concat_mark _ _ _
  have hrun := finish_fallback_run (RequestPerformance.create url t1 init).1 t2
    (RequestPerformance.create url t1 init).2
    ⟨url ++ "#start", EntryType.mark, t1, 0⟩ hq hS
  refine ⟨_, hrun, sub_nonneg.mpr hmono, ?_⟩
  intro e he
  obtain ⟨hmem, hna, hnb, hnc⟩ := mem_clear_chain he
  rw [hsn] at hna
  rw [hen] at hnb
  rw [hmn] at hnc
  rw [hsn, hen, hmn]
  have hmem' : e ∈ ((init.entries ++ [⟨url ++ "#start", EntryType.mark, t1, 0⟩]) ++
      [⟨url ++ "#end", EntryType.mark, t2, 0⟩]) ++
      [⟨url, EntryType.measure, t1, t2 - t1⟩] := hmem
  rcases List.mem_append.mp hmem' with hmem2 | hM
  · rcases List.mem_append.mp hmem2 with hmem3 | hN
    · rcases List.mem_append.mp hmem3 with hInit | hS2
      · -- e is a pre-existing entry of the initial log
        have hnotmark : e.entryType = EntryType.mark →
            e.name ≠ url ++ "#start" ∧ e.name ≠ url ++ "#end" := by
          intro htype
          constructor
          · intro hname
            rw [isMarkNamed, htype, hname] at hna
            simp at hna
          · intro hname
            rw [isMarkNamed, htype, hname] at hnb
            simp at hnb
        have hnoturl : e.name ≠ url := by
          intro hname
          have hmemq : e ∈ Timeline.getEntriesByName
              ⟨(init.entries ++ [⟨url ++ "#start", EntryType.mark, t1, 0⟩]) ++
                [⟨url ++ "#end", EntryType.mark, t2, 0⟩]⟩ url := by
            refine List.mem_filter.mpr ⟨?_, by simp [hname]⟩
            exact List.mem_append_left _ (List.mem_append_left _ hInit)
          have hqq : Timeline.getEntriesByName
              ⟨(init.entries ++ [⟨url ++ "#start", EntryType.mark, t1, 0⟩]) ++
                [⟨url ++ "#end", EntryType.mark, t2, 0⟩]⟩ url = [] := hq
          rw [hqq] at hmemq
          cases hmemq
        cases htype : e.entryType with
        | mark => exact ⟨(hnotmark htype).1, (hnotmark htype).2, hnoturl⟩
        | measure =>
          have hcl := hclean e hInit htype
          rw [hsn, hen] at hcl
          exact ⟨hcl.1, hcl.2, hnoturl⟩
      · rw [List.mem_singleton] at hS2
        subst hS2
        rw [isMarkNamed] at hna
        simp at hna
    · rw [List.mem_singleton] at hN
      subst hN
      rw [isMarkNamed] at hnb
      simp at hnb
  · rw [List.mem_singleton] at hM
    subst hM
    rw [isMeasureNamed] at hnc
    simp at hnc

/-- Witness for the amended C5 over an empty initial log. -/
theorem C5_amended_fallback_cleanup_witness :
    ∃ tl' : Timeline,
      RequestPerformance.finish (RequestPerformance.create "u" 0 ⟨[]⟩).1 1
          (RequestPerformance.create "u" 0 ⟨[]⟩).2 =
        Except.ok ([⟨"u", EntryType.measure, 0, 1 - 0⟩], tl') ∧
      (0 : ℚ) ≤ 1 - 0 ∧
      ∀ e ∈ tl'.entries,
        e.name ≠ (RequestPerformance.create "u" 0 ⟨[]⟩).1.startName ∧
        e.name ≠ (RequestPerformance.create "u" 0 ⟨[]⟩).1.endName ∧
        e.name ≠ (RequestPerformance.create "u" 0 ⟨[]⟩).1.measureName :=
  C5_amended_fallback_cleanup ⟨[]⟩ "u" 0 1 (by norm_num) (by decide)
    (by intro e he; exact absurd he (List.not_mem_nil e))
